import Mathlib

/-!
Verification of the aw-bookmark notification core and browser-extension
settings logic.  Pure components present in the repository (extension
settings validation, category drag-and-drop) are embedded from their
JavaScript source; the messaging core (router, dispatcher, config
validation), whose Python source is not part of this tree, is modelled
from the specification, as marked on each definition.
-/

namespace AwBookmark

/-- Modelled from the spec: `RecipientSet` — `individuals` (phone numbers)
and `groups` (backend-specific group identifiers). -/
structure RecipientSet where
  individuals : List String
  groups : List String
deriving DecidableEq, Repr

/-- Modelled from the spec: `ClientConfig` — enabled flag, api url, sender
identity, per-category recipients, message template and timeout (seconds,
kept abstract as a natural number since no claim depends on its value). -/
structure ClientConfig where
  enabled : Bool
  api_url : String
  sender : String
  recipients : List (String × RecipientSet)
  message_template : String
  timeoutSecs : Nat
deriving DecidableEq, Repr

/-- Modelled from the spec: `RoutingConfig` — client-kind name to
`ClientConfig`, and category name (or the sentinel `_default`) to an
ordered list of client-kind names. -/
structure RoutingConfig where
  clients : List (String × ClientConfig)
  category_routing : List (String × List String)
deriving DecidableEq, Repr

/-- Modelled from the spec: phone-number validation — a phone number must
be `+` followed by at least 7 digits. -/
def isValidPhone (s : String) : Bool :=
  match s.data with
  | '+' :: ds => decide (7 ≤ ds.length) && ds.all Char.isDigit
  | _ => false

/-- Modelled from the spec: group-id validation — every group id must
start with the backend-specific prefix "group.". -/
def isValidGroupId (s : String) : Bool :=
  "group.".data.isPrefixOf s.data

/-- Modelled from the spec: a category entry of `recipients` is valid when
at least one of the two lists is non-empty and every phone number and
group id passes its format check. -/
def validRecipientEntry (rs : RecipientSet) : Bool :=
  (!rs.individuals.isEmpty || !rs.groups.isEmpty)
    && rs.individuals.all isValidPhone
    && rs.groups.all isValidGroupId

/-- Modelled from the spec: first-occurrence de-duplication of the
resolved client-kind list — duplicates are removed and the surviving
occurrence of each kind is the first one, in its original position
order. -/
def dedupFirst : List String → List String
  | [] => []
  | x :: xs => x :: dedupFirst (xs.filter (fun y => y ≠ x))
termination_by l => l.length
decreasing_by
  simp only [List.length_cons]
  exact Nat.lt_succ_of_le (List.length_filter_le _ _)

/-- Modelled from the spec: association-list lookup used for
`category_routing` (first matching key wins, keys being unique). -/
def lookupRouting (routing : List (String × List String)) (k : String) :
    Option (List String) :=
  (routing.find? (fun p => p.1 = k)).map Prod.snd

/-- Modelled from the spec: the lookup stage of `Router.resolve` — use
`category_routing[category]` if the category is present and has an entry;
otherwise fall back to `category_routing["_default"]`; if neither exists,
the empty list (not an error). -/
def rawResolve (routing : List (String × List String))
    (category : Option String) : List String :=
  match category.bind (lookupRouting routing) with
  | some kinds => kinds
  | none => (lookupRouting routing "_default").getD []

/-- Modelled from the spec: `Router.resolve(category)` — the looked-up
client-kind list, de-duplicated preserving first-occurrence order. -/
def Router.resolve (cfg : RoutingConfig) (category : Option String) :
    List String :=
  dedupFirst (rawResolve cfg.category_routing category)

/-- Modelled from the spec: replace every (non-overlapping, left-to-right)
occurrence of `pat` in the character list by `repl`. -/
def substAll (pat repl : List Char) : List Char → List Char
  | [] => []
  | c :: cs =>
    if pat.isPrefixOf (c :: cs) then
      repl ++ substAll pat repl (cs.drop (pat.length - 1))
    else
      c :: substAll pat repl cs
termination_by l => l.length
decreasing_by
  · simp only [List.length_cons, List.length_drop]
    exact Nat.lt_succ_of_le (Nat.sub_le _ _)
  · simp [List.length_cons]

/-- Modelled from the spec: template rendering — substitute the title
placeholder and the url placeholder into the client's `message_template`;
any other placeholder is left verbatim. -/
def renderTemplate (tpl title url : String) : String :=
  String.mk (substAll "\x7burl\x7d".data url.data
    (substAll "\x7btitle\x7d".data title.data tpl.data))

/-- Characters allowed in a bookmark category: letters, numbers, spaces,
hyphen, underscore, slash, dot (README, POST /bookmark). -/
def isAllowedCategoryChar (ch : Char) : Bool :=
  ch.isAlpha || ch.isDigit || ch = ' ' || ch = '_' || ch = '.' || ch = '/'
    || ch = '-'

/-- Modelled from the spec: the category charset/length rule enforced at
the HTTP boundary and re-checked by the Dispatcher — at most 100
characters, all from the allowed charset. -/
def isValidCategory (c : String) : Bool :=
  decide (c.length ≤ 100) && c.data.all isAllowedCategoryChar

/-- Modelled from the spec: the error-kind taxonomy of `DispatchResult`
errors. -/
inductive ErrKind
  | configurationError
  | timedOut
  | transport
  | backend
deriving DecidableEq, Repr

/-- Modelled from the spec: `DispatchResult` — per (client kind,
recipient) outcome, `ok` or `error(kind, message)`. -/
inductive DispatchResult
  | ok (client recipient : String)
  | err (client recipient : String) (kind : ErrKind) (msg : String)
deriving DecidableEq, Repr

/-- Modelled from the spec: lookup of a client kind in `clients`. -/
def lookupClient (clients : List (String × ClientConfig)) (k : String) :
    Option ClientConfig :=
  (clients.find? (fun p => p.1 = k)).map Prod.snd

/-- Modelled from the spec: `BookmarkEvent` — url, title, optional
category. -/
structure BookmarkEvent where
  url : String
  title : String
  category : Option String
deriving DecidableEq, Repr

/-- Modelled from the spec: the single `ConfigurationError`-class result
the Dispatcher returns when the event's category fails validation. -/
def invalidCategoryResult : DispatchResult :=
  .err "dispatcher" "" .configurationError "invalid category"

/-- Modelled from the spec: one client's contribution to the fan-out —
look the kind up in `clients`, silently skip it when absent or disabled,
otherwise render the client's template and call its `send`.  The network
behaviour of the adapter is abstracted as the `send` oracle, whose
failures (timeout, transport, backend) are already values, never
exceptions. -/
def clientSend (cfg : RoutingConfig)
    (send : String → String → List DispatchResult)
    (ev : BookmarkEvent) (k : String) : List DispatchResult :=
  match lookupClient cfg.clients k with
  | some cc =>
      if cc.enabled then send k (renderTemplate cc.message_template ev.title ev.url)
      else []
  | none => []

/-- Modelled from the spec: `Dispatcher.dispatch(event)` — validate the
category (short-circuiting with a single configuration error, without
consulting the Router), resolve the client kinds, render and send per
client, and concatenate all per-client result lists in resolution
order.  A total function: every failure mode is a `DispatchResult`
value. -/
def Dispatcher.dispatch (cfg : RoutingConfig)
    (send : String → String → List DispatchResult)
    (ev : BookmarkEvent) : List DispatchResult :=
  match ev.category with
  | some c =>
      if isValidCategory c then
        ((Router.resolve cfg (some c)).map (clientSend cfg send ev)).flatten
      else [invalidCategoryResult]
  | none => ((Router.resolve cfg none).map (clientSend cfg send ev)).flatten

/-- Modelled from the spec: per-client config validation — invalid
category entries of `recipients` are dropped, each with a recorded
validation warning naming the category. -/
def validateClientRecipients (cc : ClientConfig) : ClientConfig × List String :=
  ({ cc with recipients := cc.recipients.filter (fun p => validRecipientEntry p.2) },
   (cc.recipients.filter (fun p => !validRecipientEntry p.2)).map
     (fun p => "invalid recipients for category " ++ p.1))

/-- Modelled from the spec: `load(raw) -> RoutingConfig | ConfigError` —
validate every client eagerly, collect non-fatal warnings, and fail only
when no valid client entry could be salvaged. -/
def loadConfig (clients : List (String × ClientConfig))
    (routing : List (String × List String)) :
    Except String (RoutingConfig × List String) :=
  let validated := clients.map (fun p => (p.1, validateClientRecipients p.2))
  let newClients := validated.map (fun p => (p.1, p.2.1))
  let warnings := (validated.map (fun p => p.2.2)).flatten
  if newClients.all (fun p => p.2.recipients.isEmpty) then
    Except.error "no valid client configuration could be salvaged"
  else
    Except.ok ({ clients := newClients, category_routing := routing }, warnings)

/-- Does `pat` occur as a contiguous substring of `s`?  Used to state the
"unresolved placeholders are left verbatim" property. -/
def occursIn (pat : List Char) : List Char → Bool
  | [] => pat.isEmpty
  | c :: cs => pat.isPrefixOf (c :: cs) || occursIn pat cs

/-! ### Extension settings page (embedded from the JavaScript source)

`splitOnDot` mirrors JavaScript `host.split('.')`, and the two pattern
tests mirror the anchored regular expressions of `isValidHost`:
the IPv4 shape (four 1–3 digit groups joined by dots) and the RFC 1123
hostname shape (dot-separated labels of 1–63 characters that start and
end alphanumeric and contain only alphanumerics and hyphens). -/

/-- JavaScript `s.split('.')` on the character list: dots separate
groups, adjacent dots and leading/trailing dots produce empty groups. -/
def splitOnDot : List Char → List (List Char)
  | [] => [[]]
  | c :: cs =>
    if c = '.' then [] :: splitOnDot cs
    else
      match splitOnDot cs with
      | g :: gs => (c :: g) :: gs
      | [] => [[c]]

/-- A group of 1 to 3 decimal digits — one `\d` group of the IPv4
pattern. -/
def isDigitGroup13 (g : List Char) : Bool :=
  decide (1 ≤ g.length) && decide (g.length ≤ 3) && g.all Char.isDigit

/-- The anchored IPv4 regular expression of `isValidHost`: exactly four
dot-separated groups of 1–3 digits. -/
def ipv4PatternTest (s : String) : Bool :=
  let gs := splitOnDot s.data
  decide (gs.length = 4) && gs.all isDigitGroup13

/-- Decimal value of a digit group — `parseInt(octet, 10)` on an
all-digit string. -/
def digitsVal (g : List Char) : Nat :=
  g.foldl (fun n c => n * 10 + (c.toNat - 48)) 0

/-- The octet range check of `isValidHost`: every dot-separated group
parses to a number between 0 and 255. -/
def octetsOk (s : String) : Bool :=
  (splitOnDot s.data).all (fun g => decide (digitsVal g ≤ 255))

/-- ASCII alphanumeric — `[a-zA-Z0-9]`. -/
def isAlphaNum (c : Char) : Bool :=
  c.isAlpha || c.isDigit

/-- One RFC 1123 label of the hostname regular expression:
`[a-zA-Z0-9]([a-zA-Z0-9-]\x7b0,61\x7d[a-zA-Z0-9])?` — non-empty, at most
63 characters, first and last alphanumeric, interior alphanumeric or
hyphen. -/
def isHostLabel (g : List Char) : Bool :=
  !g.isEmpty && decide (g.length ≤ 63)
    && isAlphaNum (g.headD 'x') && isAlphaNum (g.getLastD 'x')
    && g.all (fun ch => isAlphaNum ch || ch = '-')

/-- The anchored RFC 1123 hostname regular expression of `isValidHost`:
one or more valid labels joined by dots. -/
def hostnamePatternTest (s : String) : Bool :=
  (splitOnDot s.data).all isHostLabel

/-- Embedded from `isValidHost` in the settings page: `localhost` is
accepted outright; a host matching the IPv4 pattern is accepted iff all
its octets are ≤ 255 (without falling through to the hostname pattern);
any other host is accepted iff it matches the hostname pattern. -/
def isValidHost (host : String) : Bool :=
  if host = "localhost" then true
  else if ipv4PatternTest host then octetsOk host
  else hostnamePatternTest host

/-- JavaScript `String.prototype.trim()`: strip whitespace from both ends
of the string. -/
def jsTrim (s : String) : String :=
  String.mk (((s.data.dropWhile Char.isWhitespace).reverse.dropWhile
    Char.isWhitespace).reverse)

/-- Outcome of the settings-form submission handler: either the settings
object passed to `saveSettings`, or a refusal with the status message
shown to the user. -/
inductive SubmitOutcome
  | saved (protocol host : String) (port : Int)
  | rejected (msg : String)
deriving DecidableEq, Repr

/-- Embedded from `handleSubmit` in the settings page (the validation
chain after the browser's own `form.checkValidity()`): trim the host,
refuse an empty host, refuse a port outside 1..65535, refuse a host that
fails `isValidHost`, and otherwise save the settings. -/
def handleSubmit (protocol hostRaw : String) (port : Int) : SubmitOutcome :=
  let host := jsTrim hostRaw
  if host = "" then .rejected "Host cannot be empty"
  else if port < 1 || port > 65535 then .rejected "Port must be between 1 and 65535"
  else if !isValidHost host then .rejected "Invalid hostname or IP address"
  else .saved protocol host port

/-- A category entry of the settings page: id, emoji, label. -/
structure Category where
  id : String
  emoji : String
  label : String
deriving DecidableEq, Repr

/-- Embedded from `handleDrop` in the settings page: when the drop target
is the dragged element itself (same index) nothing changes; otherwise the
dragged entry is spliced out of the array and re-inserted at the target
index (`splice(draggedIndex, 1)` followed by
`splice(targetIndex, 0, moved)`).  Out-of-range indices cannot arise from
rendered items; the model returns the list unchanged there to stay
total. -/
def handleDrop (cats : List Category) (draggedIndex targetIndex : Nat) :
    List Category :=
  if draggedIndex = targetIndex then cats
  else
    match cats[draggedIndex]? with
    | none => cats
    | some moved => (cats.eraseIdx draggedIndex).insertIdx targetIndex moved

/-! ### Lemmas about first-occurrence de-duplication -/

theorem mem_dedupFirst {x : String} : ∀ {l : List String}, x ∈ dedupFirst l ↔ x ∈ l
  | [] => by simp [dedupFirst]
  | y :: ys => by
    rw [dedupFirst]
    constructor
    · intro h
      rcases List.mem_cons.mp h with h | h
      · exact h ▸ List.mem_cons_self _ _
      · exact List.mem_cons_of_mem _ (List.mem_of_mem_filter (mem_dedupFirst.mp h))
    · intro h
      rcases List.mem_cons.mp h with h | h
      · exact h ▸ List.mem_cons_self _ _
      · by_cases hxy : x = y
        · exact hxy ▸ List.mem_cons_self _ _
        · exact List.mem_cons_of_mem _ (mem_dedupFirst.mpr
            (List.mem_filter.mpr ⟨h, by simpa using hxy⟩))
termination_by l => l.length
decreasing_by
  all_goals simp only [List.length_cons]
  all_goals exact Nat.lt_succ_of_le (List.length_filter_le _ _)

theorem nodup_dedupFirst : ∀ (l : List String), (dedupFirst l).Nodup
  | [] => by simp [dedupFirst]
  | y :: ys => by
    rw [dedupFirst]
    refine List.nodup_cons.mpr ⟨fun hmem => ?_, nodup_dedupFirst (ys.filter (fun z => z ≠ y))⟩
    have := List.mem_filter.mp (mem_dedupFirst.mp hmem)
    simp at this
termination_by l => l.length
decreasing_by
  simp only [List.length_cons]
  exact Nat.lt_succ_of_le (List.length_filter_le _ _)

theorem sublist_dedupFirst : ∀ (l : List String), (dedupFirst l).Sublist l
  | [] => by simp [dedupFirst]
  | y :: ys => by
    rw [dedupFirst]
    exact List.Sublist.cons₂ y
      ((sublist_dedupFirst (ys.filter (fun z => z ≠ y))).trans (List.filter_sublist ys))
termination_by l => l.length
decreasing_by
  simp only [List.length_cons]
  exact Nat.lt_succ_of_le (List.length_filter_le _ _)

/-- Removing all copies of a third element `x` does not change the
relative order of the first occurrences of `a` and `b`. -/
theorem indexOf_filter_ne_lt (x a b : String) :
    ∀ (xs : List String), a ∈ xs → b ∈ xs → a ≠ x → b ≠ x →
      (xs.filter (fun y => y ≠ x)).indexOf a < (xs.filter (fun y => y ≠ x)).indexOf b →
      xs.indexOf a < xs.indexOf b := by
  intro xs
  induction xs with
  | nil => simp
  | cons y ys ih =>
    intro ha hb hax hbx hlt
    by_cases hyx : y = x
    · subst hyx
      have hay : a ≠ y := hax
      have hby : b ≠ y := hbx
      have ha' : a ∈ ys := (List.mem_cons.mp ha).resolve_left hay
      have hb' : b ∈ ys := (List.mem_cons.mp hb).resolve_left hby
      rw [List.indexOf_cons_ne _ (Ne.symm hay), List.indexOf_cons_ne _ (Ne.symm hby)]
      have hfilter : (y :: ys).filter (fun z => z ≠ y) = ys.filter (fun z => z ≠ y) := by
        simp [List.filter_cons]
      rw [hfilter] at hlt
      exact Nat.succ_lt_succ (ih ha' hb' hax hbx hlt)
    · have hfilter : (y :: ys).filter (fun z => z ≠ x) = y :: ys.filter (fun z => z ≠ x) := by
        simp [List.filter_cons, hyx]
      rw [hfilter] at hlt
      by_cases hay : a = y
      · subst hay
        have hby : b ≠ a := by
          intro hba
          subst hba
          simp [List.indexOf_cons_self] at hlt
        rw [List.indexOf_cons_self, List.indexOf_cons_ne _ (Ne.symm hby)]
        exact Nat.succ_pos _
      · by_cases hby : b = y
        · subst hby
          rw [List.indexOf_cons_self] at hlt
          exact absurd hlt (Nat.not_lt_zero _)
        · have ha' : a ∈ ys := (List.mem_cons.mp ha).resolve_left hay
          have hb' : b ∈ ys := (List.mem_cons.mp hb).resolve_left hby
          rw [List.indexOf_cons_ne _ (Ne.symm hay), List.indexOf_cons_ne _ (Ne.symm hby)] at hlt ⊢
          exact Nat.succ_lt_succ (ih ha' hb' hax hbx (Nat.lt_of_succ_lt_succ hlt))

/-- The elements surviving de-duplication are ordered by the position of
their first occurrence in the original list. -/
theorem pairwise_indexOf_dedupFirst :
    ∀ (l : List String), (dedupFirst l).Pairwise (fun a b => l.indexOf a < l.indexOf b)
  | [] => by simp [dedupFirst]
  | y :: ys => by
    rw [dedupFirst]
    refine List.pairwise_cons.mpr ⟨?_, ?_⟩
    · intro b hb
      have hbf := mem_dedupFirst.mp hb
      have hb' := List.mem_filter.mp hbf
      have hby : b ≠ y := by simpa using hb'.2
      rw [List.indexOf_cons_self, List.indexOf_cons_ne _ (Ne.symm hby)]
      exact Nat.succ_pos _
    · have ihp := pairwise_indexOf_dedupFirst (ys.filter (fun z => z ≠ y))
      refine ihp.imp_of_mem ?_
      intro a b hamem hbmem hab
      have ha' := List.mem_filter.mp (mem_dedupFirst.mp hamem)
      have hb' := List.mem_filter.mp (mem_dedupFirst.mp hbmem)
      have hay : a ≠ y := by simpa using ha'.2
      have hby : b ≠ y := by simpa using hb'.2
      rw [List.indexOf_cons_ne _ (Ne.symm hay), List.indexOf_cons_ne _ (Ne.symm hby)]
      exact Nat.succ_lt_succ (indexOf_filter_ne_lt y a b ys ha'.1 hb'.1 hay hby hab)
termination_by l => l.length
decreasing_by
  all_goals simp only [List.length_cons]
  all_goals exact Nat.lt_succ_of_le (List.length_filter_le _ _)

/-- De-duplication does not disturb a list that already has no
duplicates. -/
theorem dedupFirst_eq_self : ∀ {l : List String}, l.Nodup → dedupFirst l = l
  | [], _ => by rw [dedupFirst]
  | y :: ys, h => by
    rw [dedupFirst]
    have h1 : ys.filter (fun z => z ≠ y) = ys :=
      List.filter_eq_self.mpr (fun a ha => by
        simp only [ne_eq, decide_eq_true_eq]
        exact fun e => (List.nodup_cons.mp h).1 (e ▸ ha))
    rw [h1, dedupFirst_eq_self (List.nodup_cons.mp h).2]

/-- C2: Router.resolve uses the category's own entry when the category is
present and has one; otherwise it falls back to the `_default` entry; and
when neither exists it returns the empty list — a plain value of the
result type, not an error.  Entries are returned de-duplicated, as the
same specification paragraph prescribes (`dedupFirst e = e` whenever the
configured entry has no duplicate kinds). -/
theorem router_resolve_cases (cfg : RoutingConfig) (category : Option String) :
    (∀ c e, category = some c → lookupRouting cfg.category_routing c = some e →
        Router.resolve cfg category = dedupFirst e
          ∧ (e.Nodup → Router.resolve cfg category = e))
    ∧ (∀ d, category.bind (lookupRouting cfg.category_routing) = none →
        lookupRouting cfg.category_routing "_default" = some d →
        Router.resolve cfg category = dedupFirst d)
    ∧ (category.bind (lookupRouting cfg.category_routing) = none →
        lookupRouting cfg.category_routing "_default" = none →
        Router.resolve cfg category = []) := by
  refine ⟨?_, ?_, ?_⟩
  · intro c e hcat hlook
    subst hcat
    have : Router.resolve cfg (some c) = dedupFirst e := by
      simp [Router.resolve, rawResolve, hlook]
    exact ⟨this, fun hnd => this.trans (dedupFirst_eq_self hnd)⟩
  · intro d hbind hdef
    simp [Router.resolve, rawResolve, hbind, hdef]
  · intro hbind hdef
    simp [Router.resolve, rawResolve, hbind, hdef, dedupFirst]

/-- Witness for C2: a present category resolves to its own (duplicate-free)
entry, at a concrete routing table. -/
theorem router_resolve_cases_witness :
    Router.resolve ⟨[], [("work", ["signal", "matrix"]), ("_default", ["matrix"])]⟩
        (some "work") = ["signal", "matrix"] :=
  ((router_resolve_cases
      ⟨[], [("work", ["signal", "matrix"]), ("_default", ["matrix"])]⟩
      (some "work")).1 "work" ["signal", "matrix"] rfl (by decide)).2 (by decide)

/-- C3: for a category present in `category_routing`, the resolved
client-kind list has no duplicates, is a sublist of the configured entry
(so relative order is preserved), contains exactly the kinds of the
entry, and its elements are ordered by the position of their first
occurrence in the configured entry. -/
theorem router_resolve_dedup (cfg : RoutingConfig) (c : String) (e : List String)
    (hlook : lookupRouting cfg.category_routing c = some e) :
    (Router.resolve cfg (some c)).Nodup
    ∧ (∀ x, x ∈ Router.resolve cfg (some c) ↔ x ∈ e)
    ∧ (Router.resolve cfg (some c)).Sublist e
    ∧ (Router.resolve cfg (some c)).Pairwise (fun a b => e.indexOf a < e.indexOf b) := by
  have hres : Router.resolve cfg (some c) = dedupFirst e := by
    simp [Router.resolve, rawResolve, hlook]
  rw [hres]
  exact ⟨nodup_dedupFirst e, fun _ => mem_dedupFirst, sublist_dedupFirst e,
    pairwise_indexOf_dedupFirst e⟩

/-- Witness for C3: a routing entry with a duplicated kind resolves to a
duplicate-free list. -/
theorem router_resolve_dedup_witness :
    (Router.resolve ⟨[], [("work", ["signal", "signal", "matrix"])]⟩
        (some "work")).Nodup :=
  (router_resolve_dedup ⟨[], [("work", ["signal", "signal", "matrix"])]⟩
      "work" ["signal", "signal", "matrix"] (by decide)).1

/-- C8: Router.resolve is a pure function of the configuration and the
category: two successive calls with the same arguments are literally the
same value, and the result reads nothing outside `category_routing` —
configurations with the same routing table resolve identically. -/
theorem router_resolve_idempotent (cfg cfg' : RoutingConfig)
    (category : Option String)
    (h : cfg.category_routing = cfg'.category_routing) :
    Router.resolve cfg category = Router.resolve cfg category
    ∧ Router.resolve cfg category = Router.resolve cfg' category :=
  ⟨rfl, by simp [Router.resolve, h]⟩

/-- Witness for C8: two configurations differing only in their clients
resolve the same category identically. -/
theorem router_resolve_idempotent_witness :
    Router.resolve
        ⟨[("signal", ⟨true, "http://localhost:8080", "+1234567890", [],
            "t", 10⟩)], [("work", ["signal"])]⟩ (some "work")
      = Router.resolve ⟨[], [("work", ["signal"])]⟩ (some "work") :=
  (router_resolve_idempotent
      ⟨[("signal", ⟨true, "http://localhost:8080", "+1234567890", [], "t", 10⟩)],
        [("work", ["signal"])]⟩
      ⟨[], [("work", ["signal"])]⟩ (some "work") rfl).2

/-- C4: phone-number validation accepts exactly the strings made of `+`
followed by at least 7 digits. -/
theorem phone_validation_spec (s : String) :
    isValidPhone s = true ↔
      ∃ ds, s.data = '+' :: ds ∧ 7 ≤ ds.length ∧ ∀ c ∈ ds, c.isDigit = true := by
  unfold isValidPhone
  split
  · next ds heq =>
    simp only [Bool.and_eq_true, decide_eq_true_eq, List.all_eq_true]
    constructor
    · rintro ⟨h1, h2⟩
      exact ⟨ds, heq, h1, fun c hc => h2 c hc⟩
    · rintro ⟨ds', heq', hlen, hdig⟩
      rw [heq] at heq'
      injection heq' with _ hds
      subst hds
      exact ⟨hlen, fun c hc => hdig c hc⟩
  · next hne =>
    simp only [Bool.false_eq_true, false_iff]
    rintro ⟨ds, heq, _, _⟩
    exact hne ds heq

/-- Witness for C4: `+1234567` (7 digits) passes and `+123456` (6 digits)
fails. -/
theorem phone_validation_spec_witness :
    isValidPhone "+1234567" = true ∧ isValidPhone "+123456" = false :=
  ⟨(phone_validation_spec "+1234567").mpr
      ⟨['1', '2', '3', '4', '5', '6', '7'], by decide, by decide, by decide⟩,
   by decide⟩

/-- A pattern absent from a character list is left untouched by
substitution. -/
theorem substAll_not_occurs (pat repl : List Char) :
    ∀ (s : List Char), occursIn pat s = false → substAll pat repl s = s
  | [], _ => by rw [substAll]
  | c :: cs, h => by
    rw [occursIn, Bool.or_eq_false_iff] at h
    rw [substAll, if_neg (by simp [h.1]), substAll_not_occurs pat repl cs h.2]

/-- C6: rendering substitutes the title and url placeholders — concretely,
the default template with `title="Example Site"`, `url="https://example.com"`
renders to the documented message — and a template with no placeholder
occurrence is returned verbatim, unresolved placeholders included, with no
error (rendering is a total function into `String`). -/
theorem template_rendering (tpl title url : String)
    (hT : occursIn "\x7btitle\x7d".data tpl.data = false)
    (hU : occursIn "\x7burl\x7d".data tpl.data = false) :
    renderTemplate tpl title url = tpl
    ∧ renderTemplate "🔖 \x7btitle\x7d\n\x7burl\x7d" "Example Site" "https://example.com"
        = "🔖 Example Site\nhttps://example.com"
    ∧ renderTemplate "\x7bfoo\x7d \x7btitle\x7d" "T" "U" = "\x7bfoo\x7d T" := by
  refine ⟨?_, by simp [renderTemplate, substAll], by simp [renderTemplate, substAll]⟩
  show String.mk (substAll _ _ (substAll _ _ tpl.data)) = tpl
  rw [substAll_not_occurs _ _ _ hT, substAll_not_occurs _ _ _ hU]

/-- Witness for C6: a template mentioning neither placeholder is rendered
unchanged. -/
theorem template_rendering_witness :
    renderTemplate "plain message" "T" "U" = "plain message" :=
  (template_rendering "plain message" "T" "U" (by decide) (by decide)).1

/-- C7: an event whose category violates the charset/length rule makes the
Dispatcher return the single configuration-error result, and the outcome
is the same under every routing configuration — the Router is never
consulted. -/
theorem dispatcher_short_circuit (cfg : RoutingConfig)
    (send : String → String → List DispatchResult) (ev : BookmarkEvent)
    (c : String) (hc : ev.category = some c) (hv : isValidCategory c = false) :
    Dispatcher.dispatch cfg send ev = [invalidCategoryResult]
    ∧ ∀ cfg', Dispatcher.dispatch cfg' send ev = Dispatcher.dispatch cfg send ev := by
  have h1 : ∀ cfg₀ : RoutingConfig,
      Dispatcher.dispatch cfg₀ send ev = [invalidCategoryResult] := by
    intro cfg₀
    simp [Dispatcher.dispatch, hc, hv]
  exact ⟨h1 cfg, fun cfg' => (h1 cfg').trans (h1 cfg).symm⟩

/-- Witness for C7: a category with a forbidden character short-circuits
even though the routing table has an entry for it. -/
theorem dispatcher_short_circuit_witness :
    Dispatcher.dispatch ⟨[], [("bad!cat", ["signal"])]⟩ (fun _ _ => [])
      ⟨"https://x.test", "T", some "bad!cat"⟩ = [invalidCategoryResult] :=
  (dispatcher_short_circuit ⟨[], [("bad!cat", ["signal"])]⟩ (fun _ _ => [])
      ⟨"https://x.test", "T", some "bad!cat"⟩ "bad!cat" rfl (by decide)).1

/-- C1: for an event whose valid category resolves to two enabled clients,
the dispatch result is exactly the first client's `send` outcome followed
by the second client's `send` outcome — whatever either `send` returns
(timeouts and failures included, since every adapter failure is a
`DispatchResult` value, never an exception), both clients' outcomes are
present and neither client's results are altered by the other's. -/
theorem dispatcher_isolation (cfg : RoutingConfig)
    (send : String → String → List DispatchResult) (ev : BookmarkEvent)
    (c k1 k2 : String) (cc1 cc2 : ClientConfig)
    (hc : ev.category = some c) (hv : isValidCategory c = true)
    (hr : Router.resolve cfg (some c) = [k1, k2])
    (h1 : lookupClient cfg.clients k1 = some cc1) (e1 : cc1.enabled = true)
    (h2 : lookupClient cfg.clients k2 = some cc2) (e2 : cc2.enabled = true) :
    Dispatcher.dispatch cfg send ev =
        send k1 (renderTemplate cc1.message_template ev.title ev.url)
          ++ send k2 (renderTemplate cc2.message_template ev.title ev.url)
    ∧ (∀ r ∈ send k1 (renderTemplate cc1.message_template ev.title ev.url),
        r ∈ Dispatcher.dispatch cfg send ev)
    ∧ (∀ r ∈ send k2 (renderTemplate cc2.message_template ev.title ev.url),
        r ∈ Dispatcher.dispatch cfg send ev) := by
  have heq : Dispatcher.dispatch cfg send ev =
      send k1 (renderTemplate cc1.message_template ev.title ev.url)
        ++ send k2 (renderTemplate cc2.message_template ev.title ev.url) := by
    simp [Dispatcher.dispatch, hc, hv, hr, clientSend, h1, h2, e1, e2]
  refine ⟨heq, ?_, ?_⟩ <;> intro r hrmem <;> rw [heq] <;> simp [hrmem]

/-- Witness for C1: category `work` routed to a Signal client that times
out and a Matrix client that succeeds — both outcomes appear, in
resolution order. -/
theorem dispatcher_isolation_witness :
    Dispatcher.dispatch
        ⟨[("signal", ⟨true, "http://localhost:8080", "+1234567890",
            [("work", ⟨["+1111111111"], []⟩)], "\x7btitle\x7d \x7burl\x7d", 10⟩),
          ("matrix", ⟨true, "http://localhost:8008", "@bot:server",
            [("work", ⟨[], ["group.room"]⟩)], "\x7btitle\x7d \x7burl\x7d", 10⟩)],
          [("work", ["signal", "matrix"])]⟩
        (fun k _ =>
          if k = "signal" then
            [.err "signal" "+1111111111" .timedOut "send timed out"]
          else [.ok "matrix" "group.room"])
        ⟨"https://x.test", "T", some "work"⟩
      = [.err "signal" "+1111111111" .timedOut "send timed out"]
          ++ [.ok "matrix" "group.room"] :=
  (dispatcher_isolation _ _ _ "work" "signal" "matrix"
      ⟨true, "http://localhost:8080", "+1234567890",
        [("work", ⟨["+1111111111"], []⟩)], "\x7btitle\x7d \x7burl\x7d", 10⟩
      ⟨true, "http://localhost:8008", "@bot:server",
        [("work", ⟨[], ["group.room"]⟩)], "\x7btitle\x7d \x7burl\x7d", 10⟩
      rfl (by decide)
      (by simp [Router.resolve, rawResolve, lookupRouting, dedupFirst])
      (by decide) rfl (by decide) rfl).1

/-- C5: a `RecipientSet` with both lists empty fails validation; every
client/category pair carrying it is dropped at config-load time with a
recorded validation error; and such a rejection leaves config load
succeeding as long as some client still has a valid category entry. -/
theorem recipient_validation_empty (rs : RecipientSet)
    (hi : rs.individuals = []) (hg : rs.groups = []) :
    validRecipientEntry rs = false
    ∧ (∀ (cc : ClientConfig) (n : String), (n, rs) ∈ cc.recipients →
        (n, rs) ∉ (validateClientRecipients cc).1.recipients
          ∧ ("invalid recipients for category " ++ n) ∈ (validateClientRecipients cc).2)
    ∧ (∀ (clients : List (String × ClientConfig))
          (routing : List (String × List String)),
        (∃ p ∈ clients, ∃ q ∈ p.2.recipients, validRecipientEntry q.2 = true) →
        ∃ out, loadConfig clients routing = Except.ok out) := by
  have hval : validRecipientEntry rs = false := by
    simp [validRecipientEntry, hi, hg]
  refine ⟨hval, ?_, ?_⟩
  · intro cc n hmem
    constructor
    · intro hmem'
      have h2 := (List.mem_filter.mp hmem').2
      rw [hval] at h2
      exact Bool.false_ne_true h2
    · exact List.mem_map.mpr
        ⟨(n, rs), List.mem_filter.mpr ⟨hmem, by simp [hval]⟩, rfl⟩
  · rintro clients routing ⟨p, hp, q, hq, hqv⟩
    cases hAll : ((clients.map (fun r => (r.1, validateClientRecipients r.2))).map
        (fun r => (r.1, r.2.1))).all (fun r => r.2.recipients.isEmpty) with
    | false => exact ⟨_, by simp only [loadConfig]; rw [hAll]; rfl⟩
    | true =>
      exfalso
      have hforall := List.all_eq_true.mp hAll
      have hmem2 : (p.1, (validateClientRecipients p.2).1) ∈
          (clients.map (fun r => (r.1, validateClientRecipients r.2))).map
            (fun r => (r.1, r.2.1)) :=
        List.mem_map.mpr ⟨(p.1, validateClientRecipients p.2),
          List.mem_map.mpr ⟨p, hp, rfl⟩, rfl⟩
      have hempty := hforall _ hmem2
      simp only [validateClientRecipients, List.isEmpty_iff] at hempty
      have hq' : q ∈ p.2.recipients.filter (fun r => validRecipientEntry r.2) :=
        List.mem_filter.mpr ⟨hq, hqv⟩
      rw [hempty] at hq'
      exact absurd hq' (List.not_mem_nil q)

/-- Witness for C5: a client whose `work` entry has two empty lists is
rejected, yet config load succeeds thanks to its valid `personal`
entry. -/
theorem recipient_validation_empty_witness :
    validRecipientEntry ⟨[], []⟩ = false
    ∧ ∃ out, loadConfig
        [("signal", ⟨true, "http://localhost:8080", "+1234567890",
            [("work", ⟨[], []⟩), ("personal", ⟨["+1234567"], []⟩)], "m", 10⟩)]
        [("personal", ["signal"])] = Except.ok out :=
  ⟨(recipient_validation_empty ⟨[], []⟩ rfl rfl).1,
   (recipient_validation_empty ⟨[], []⟩ rfl rfl).2.2 _ [("personal", ["signal"])]
     ⟨("signal", ⟨true, "http://localhost:8080", "+1234567890",
         [("work", ⟨[], []⟩), ("personal", ⟨["+1234567"], []⟩)], "m", 10⟩),
       by decide, ("personal", ⟨["+1234567"], []⟩), by decide, by decide⟩⟩

/-- The acceptance characterization asserted for `isValidHost`: accepted
iff `localhost`, or an in-range dotted quad, or an RFC 1123 hostname
(regardless of whether the host also matches the dotted-quad digit
pattern). -/
def claimedValidHost (host : String) : Bool :=
  host = "localhost" || (ipv4PatternTest host && octetsOk host)
    || hostnamePatternTest host

/-- Counterexample to C9 as stated: `256.1.1.1` matches the RFC 1123
hostname pattern (all-digit labels are alphanumeric), so the claimed
characterization accepts it, but `isValidHost` returns false — the IPv4
digit-pattern branch checks the octet range and never falls through to
the hostname pattern. -/
theorem isValidHost_claim_false_at_256 :
    ¬ (isValidHost "256.1.1.1" = true ↔ claimedValidHost "256.1.1.1" = true) := by
  decide

/-- C9 (amended): `isValidHost` returns true exactly for `localhost`, for
dotted-quad strings of four 1–3 digit groups whose octets are all ≤ 255,
and for RFC 1123 hostnames that do not match the dotted-quad digit
pattern; and `handleSubmit` refuses to save settings whenever
`isValidHost` rejects the trimmed host. -/
theorem isValidHost_characterization (host : String) :
    (isValidHost host = true ↔
      (host = "localhost"
        ∨ (ipv4PatternTest host = true ∧ octetsOk host = true)
        ∨ (ipv4PatternTest host = false ∧ hostnamePatternTest host = true)))
    ∧ (∀ (protocol hostRaw : String) (port : Int),
        isValidHost (jsTrim hostRaw) = false →
        ∃ m, handleSubmit protocol hostRaw port = .rejected m) := by
  constructor
  · by_cases h1 : host = "localhost"
    · simp [isValidHost, h1]
    · by_cases h2 : ipv4PatternTest host = true
      · simp [isValidHost, h1, h2]
      · simp only [Bool.not_eq_true] at h2
        simp [isValidHost, h1, h2]
  · intro protocol hostRaw port hbad
    by_cases h0 : jsTrim hostRaw = ""
    · exact ⟨"Host cannot be empty", by simp [handleSubmit, h0]⟩
    · by_cases hp : (port < 1 || port > 65535) = true
      · exact ⟨"Port must be between 1 and 65535", by simp [handleSubmit, h0, hp]⟩
      · exact ⟨"Invalid hostname or IP address", by simp [handleSubmit, h0, hp, hbad]⟩

/-- Witness for C9 (amended): a hyphenated RFC 1123 host is accepted, and
submitting the out-of-range dotted quad `999.1.1.1` is refused. -/
theorem isValidHost_characterization_witness :
    isValidHost "my-host.example.com" = true
    ∧ ∃ m, handleSubmit "http" "999.1.1.1" 5601 = .rejected m :=
  ⟨(isValidHost_characterization "my-host.example.com").1.mpr
      (Or.inr (Or.inr ⟨by decide, by decide⟩)),
   (isValidHost_characterization "999.1.1.1").2 "http" "999.1.1.1" 5601
      (by decide)⟩

/-- C10: dropping a dragged category onto a different valid position
permutes the list — same length, same elements with the same
multiplicities — and places the dragged entry at the target index; a drop
onto the dragged element itself leaves the list unchanged. -/
theorem handleDrop_perm (cats : List Category) (i j : Nat)
    (hi : i < cats.length) (hj : j < cats.length) (hij : i ≠ j) :
    (handleDrop cats i j).Perm cats
    ∧ (handleDrop cats i j).length = cats.length
    ∧ (handleDrop cats i j)[j]? = cats[i]?
    ∧ (∀ (l : List Category) (k : Nat), handleDrop l k k = l) := by
  have hget : cats[i]? = some cats[i] := List.getElem?_eq_getElem hi
  have hdrop : handleDrop cats i j = (cats.eraseIdx i).insertIdx j cats[i] := by
    simp [handleDrop, hij, hget]
  have hlen_erase : (cats.eraseIdx i).length = cats.length - 1 := by
    rw [List.length_eraseIdx, if_pos hi]
  have hj' : j ≤ (cats.eraseIdx i).length := by
    rw [hlen_erase]
    exact Nat.le_sub_one_of_lt hj
  have hperm : ((cats.eraseIdx i).insertIdx j cats[i]).Perm cats := by
    refine (List.perm_insertIdx cats[i] _ hj').trans ?_
    rw [List.eraseIdx_eq_take_drop_succ]
    have h3 : cats.take i ++ cats[i] :: cats.drop (i + 1) = cats := by
      rw [List.getElem_cons_drop, List.take_append_drop]
    exact List.Perm.trans List.perm_middle.symm (by rw [h3])
  refine ⟨?_, ?_, ?_, ?_⟩
  · rw [hdrop]
    exact hperm
  · rw [hdrop]
    exact hperm.length_eq
  · rw [hdrop, hget]
    have hlt : j < ((cats.eraseIdx i).insertIdx j cats[i]).length := by
      rw [List.length_insertIdx _ _ hj', hlen_erase]
      omega
    rw [List.getElem?_eq_getElem hlt, List.getElem_insertIdx_self _ _ _ hj']
  · intro l k
    simp [handleDrop]

/-- Witness for C10: dragging the first default category onto the third
position yields a permutation of the three. -/
theorem handleDrop_perm_witness :
    (handleDrop [⟨"cat_1", "a", "toptopbot"⟩, ⟨"cat_2", "b", "education"⟩,
        ⟨"cat_3", "c", "ahbon"⟩] 0 2).Perm
      [⟨"cat_1", "a", "toptopbot"⟩, ⟨"cat_2", "b", "education"⟩,
        ⟨"cat_3", "c", "ahbon"⟩] :=
  (handleDrop_perm [⟨"cat_1", "a", "toptopbot"⟩, ⟨"cat_2", "b", "education"⟩,
      ⟨"cat_3", "c", "ahbon"⟩] 0 2 (by decide) (by decide) (by decide)).1

end AwBookmark
